import Mathlib

/-!
Verification of the timestamp/geotag extraction and normalization pipeline of
`fetch_timestamps_app.py` (Wingtra image-timestamp report generator).

The core of the program is the row-building part of `generate_pdf`
(lines 40-63 of the source): it navigates `json_data['flights'][0]['geotag']`,
resolves a timezone once from the first entry's coordinate, and for each
geotag entry derives an image filename, a UTC display string and a local
display string.

The embedding below translates that code into pure Lean functions.  External
services (the `timezonefinder` point-in-polygon lookup and the `pytz` offset
database) are passed in as an explicit environment `TZEnv`; Python exceptions
are modelled with `Except`.
-/

namespace FetchTimestamps

/-- Geotag entry of the flight JSON: a `coordinate` pair
(latitude, longitude) in decimal degrees, and a `timestamp` string holding
milliseconds since the UTC epoch, possibly with a fractional suffix after
a dot.  Decimal degrees are modelled as rationals. -/
structure GeotagEntry where
  coordinate : Rat × Rat
  timestamp : String
deriving DecidableEq

/-- Flight object of the JSON input.  The `geotag` field is `none` when the
parsed dictionary has no `geotag` key (accessing it raises `KeyError` in the
source, abstracted as `MalformedInput`). -/
structure Flight where
  geotag : Option (List GeotagEntry)
deriving DecidableEq

/-- Top-level parsed JSON input: `flights` is the list under the
`flights` key. -/
structure FlightRecord where
  flights : List Flight
deriving DecidableEq

/-- Output row of the normalization core, one per geotag entry: the derived
image filename and the formatted UTC and local capture times.  This is one
row of the `zip(img, utc, local)` table of line 92 of the source. -/
structure CaptureRow where
  imageName : String
  utcTime : String
  localTime : String
deriving DecidableEq

/-- Error taxonomy of the pipeline.  `MalformedInput` abstracts the
`KeyError` / `IndexError` raised while navigating the parsed JSON,
`TimestampParseError` the `ValueError` of `int(...)` on a non-numeric
timestamp, `TimezoneResolutionError` the `pytz.UnknownTimeZoneError` raised
by `pytz.timezone(None)` when `timezone_at` found no polygon, and
`TimestampRangeError` the `OverflowError`/`ValueError` of `datetime` when an
instant falls outside the representable range (years 1..9999). -/
inductive Err where
  | MalformedInput
  | TimestampParseError
  | TimezoneResolutionError
  | TimestampRangeError
deriving DecidableEq

/-- Environment of external timezone services.
`timezone_at lat lon` models `TimezoneFinder().timezone_at(lat=..., lng=...)`:
`none` when no timezone polygon contains the point.  `utcoffset z t` models
the total UTC offset in seconds that the `pytz` timezone named `z` assigns at
the UTC instant `t` (in milliseconds since the epoch); `astimezone` adds this
offset to the instant to obtain local wall-clock time. -/
structure TZEnv where
  timezone_at : Rat → Rat → Option String
  utcoffset : String → Int → Int

/-! ### Python `int(...)` on strings -/

/-- Numeric value of a list of decimal digit characters
(most significant first). -/
def digitsVal (l : List Char) : Nat :=
  l.foldl (fun a c => 10 * a + (c.toNat - 48)) 0

/-- Strip leading and trailing whitespace, as Python `int(str)` does before
parsing. -/
def trimWs (l : List Char) : List Char :=
  ((l.dropWhile Char.isWhitespace).reverse.dropWhile Char.isWhitespace).reverse

/-- Models Python `int(s)` for a string argument: optional surrounding
whitespace, an optional sign, then one or more decimal digits; anything else
raises `ValueError`, modelled as `none`.  (Underscore digit separators,
accepted by CPython between digits, are not modelled; no claim depends on
them.) -/
def pythonIntOfString (s : String) : Option Int :=
  match trimWs s.data with
  | [] => none
  | '-' :: rest =>
    if rest ≠ [] ∧ rest.all Char.isDigit then some (-(digitsVal rest : Int)) else none
  | '+' :: rest =>
    if rest ≠ [] ∧ rest.all Char.isDigit then some (digitsVal rest) else none
  | l =>
    if l.all Char.isDigit then some (digitsVal l) else none

/-- Line 56 of the source: `int(entry['timestamp'].split('.')[0])` — the
timestamp string truncated at the first `.` and parsed as an integer number
of milliseconds since the UTC epoch. -/
def parseTimestampMillis (s : String) : Option Int :=
  pythonIntOfString ⟨s.data.takeWhile (fun c => c != '.')⟩

/-- Decoded instant, in seconds, of a millisecond timestamp: line 56 divides
by 1000 with Python true division. -/
def instantSeconds (ms : Int) : Rat :=
  (ms : Rat) / 1000

/-! ### Decimal rendering (Python `str(...)` on a natural number) -/

/-- Fuel-indexed digit renderer; the fuel only serves to make the recursion
structural so that the kernel can evaluate it. -/
def natDigitsAux : Nat → Nat → List Char
  | _, 0 => []
  | n, fuel + 1 =>
    if n < 10 then [Nat.digitChar n]
    else natDigitsAux (n / 10) fuel ++ [Nat.digitChar (n % 10)]

/-- Decimal digit characters of `n`, most significant first. -/
def natDigits (n : Nat) : List Char :=
  natDigitsAux n (n + 1)

/-- Models Python `str(n)` for a natural number. -/
def natRepr (n : Nat) : String :=
  ⟨natDigits n⟩

/-- Decimal digits of `n` left-padded with `'0'` to width `w`; used both for
the filename index padding of line 53 and for the zero-padded fields of
`strftime`. -/
def padList (w n : Nat) : List Char :=
  List.replicate (w - (natDigits n).length) '0' ++ natDigits n

theorem natDigitsAux_irrel (n : Nat) : ∀ f1 f2, n < f1 → n < f2 →
    natDigitsAux n f1 = natDigitsAux n f2 := by
  induction n using Nat.strong_induction_on with
  | _ n ih =>
    intro f1 f2 h1 h2
    match f1, f2 with
    | g1 + 1, g2 + 1 =>
      simp only [natDigitsAux]
      by_cases h : n < 10
      · simp [h]
      · simp only [if_neg h]
        have hd : n / 10 < n := Nat.div_lt_self (by omega) (by omega)
        rw [ih (n / 10) hd g1 g2 (by omega) (by omega)]

/-- Unfolding equation for `natDigits` that hides the fuel. -/
theorem natDigits_eq (n : Nat) :
    natDigits n = if n < 10 then [Nat.digitChar n]
      else natDigits (n / 10) ++ [Nat.digitChar (n % 10)] := by
  show natDigitsAux n (n + 1) = _
  simp only [natDigitsAux]
  by_cases h : n < 10
  · simp [h]
  · simp only [if_neg h]
    have hd : n / 10 < n := Nat.div_lt_self (by omega) (by omega)
    rw [natDigitsAux_irrel (n / 10) n (n / 10 + 1) hd (by omega)]
    rfl

theorem digitChar_isDigit (d : Nat) (h : d < 10) :
    (Nat.digitChar d).isDigit = true := by
  interval_cases d <;> decide

theorem digitChar_toNat (d : Nat) (h : d < 10) :
    (Nat.digitChar d).toNat = 48 + d := by
  interval_cases d <;> decide

theorem natDigits_ne_nil (n : Nat) : natDigits n ≠ [] := by
  rw [natDigits_eq]
  split <;> simp

theorem natDigits_all_digit (n : Nat) : ∀ c ∈ natDigits n, c.isDigit = true := by
  induction n using Nat.strong_induction_on with
  | _ n ih =>
    intro c hc
    rw [natDigits_eq] at hc
    by_cases h : n < 10
    · rw [if_pos h] at hc
      simp at hc
      subst hc
      exact digitChar_isDigit n h
    · rw [if_neg h] at hc
      rcases List.mem_append.mp hc with h1 | h2
      · exact ih (n / 10) (Nat.div_lt_self (by omega) (by omega)) c h1
      · simp at h2
        subst h2
        exact digitChar_isDigit (n % 10) (Nat.mod_lt n (by omega))

theorem natDigits_length_le (k : Nat) : ∀ n, 0 < k → n < 10 ^ k →
    (natDigits n).length ≤ k := by
  intro n
  induction n using Nat.strong_induction_on generalizing k with
  | _ n ih =>
    intro hk h
    rw [natDigits_eq]
    by_cases h10 : n < 10
    · simp only [if_pos h10, List.length_cons, List.length_nil]
      omega
    · rw [if_neg h10]
      have hk2 : 2 ≤ k := by
        by_contra hc
        have : k = 1 := by omega
        subst this
        simp at h
        omega
      have hdiv : n / 10 < 10 ^ (k - 1) := by
        have h10pos : (0:Nat) < 10 := by omega
        rw [Nat.div_lt_iff_lt_mul h10pos]
        calc n < 10 ^ k := h
        _ = 10 ^ (k - 1) * 10 := by
              rw [← pow_succ]
              congr 1
              omega
      have := ih (n / 10) (Nat.div_lt_self (by omega) (by omega)) (k := k - 1)
        (by omega) hdiv
      simp only [List.length_append, List.length_cons, List.length_nil]
      omega

theorem natDigits_length_ge (k : Nat) : ∀ n, 10 ^ k ≤ n →
    k + 1 ≤ (natDigits n).length := by
  intro n
  induction n using Nat.strong_induction_on generalizing k with
  | _ n ih =>
    intro h
    rw [natDigits_eq]
    by_cases h10 : n < 10
    · rw [if_pos h10]
      have : k = 0 := by
        by_contra hc
        have : 10 ≤ 10 ^ k := by
          calc (10:Nat) = 10 ^ 1 := (pow_one 10).symm
          _ ≤ 10 ^ k := Nat.pow_le_pow_right (by omega) (by omega)
        omega
      simp [this]
    · rw [if_neg h10]
      simp only [List.length_append, List.length_cons, List.length_nil]
      rcases Nat.eq_zero_or_pos k with hk | hk
      · have := natDigits_ne_nil (n / 10)
        have : 0 < (natDigits (n / 10)).length := List.length_pos.mpr this
        omega
      · have hdiv : 10 ^ (k - 1) ≤ n / 10 := by
          rw [Nat.le_div_iff_mul_le (by omega : (0:Nat) < 10)]
          calc 10 ^ (k - 1) * 10 = 10 ^ k := by
                rw [← pow_succ]
                congr 1
                omega
          _ ≤ n := h
        have := ih (n / 10) (Nat.div_lt_self (by omega) (by omega)) (k := k - 1) hdiv
        omega

theorem digitsVal_natDigits (n : Nat) : digitsVal (natDigits n) = n := by
  induction n using Nat.strong_induction_on with
  | _ n ih =>
    rw [natDigits_eq]
    by_cases h : n < 10
    · rw [if_pos h]
      simp [digitsVal, digitChar_toNat n h]
    · rw [if_neg h]
      have hd : n / 10 < n := Nat.div_lt_self (by omega) (by omega)
      simp only [digitsVal, List.foldl_append, List.foldl_cons, List.foldl_nil]
      have : List.foldl (fun a c => 10 * a + (c.toNat - 48)) 0 (natDigits (n / 10)) = n / 10 :=
        ih (n / 10) hd
      rw [this, digitChar_toNat (n % 10) (Nat.mod_lt n (by omega))]
      omega

/-! ### Civil calendar (models `datetime.utcfromtimestamp` + `strftime`)

The conversion from days-since-epoch to a Gregorian (year, month, day) is the
standard civil-from-days algorithm that `datetime` implements; it is computed
here on the shifted day number `z = days + 719468` which is non-negative for
every instant `datetime` can represent (years 1..9999). -/

/-- Gregorian `(year, month, day)` of the shifted day number
`z = days-since-1970 + 719468`. -/
def civilFromDays (z : Nat) : Nat × Nat × Nat :=
  let era := z / 146097
  let doe := z % 146097
  let yoe := (doe - doe / 1460 + doe / 36524 - doe / 146096) / 365
  let y := yoe + era * 400
  let doy := doe - (365 * yoe + yoe / 4 - yoe / 100)
  let mp := (5 * doy + 2) / 153
  let d := doy - (153 * mp + 2) / 5 + 1
  let m := if mp < 10 then mp + 3 else mp - 9
  (if m ≤ 2 then y + 1 else y, m, d)

/-- Models `strftime('%Y-%m-%d %H:%M')` on the UTC datetime at minute number
`m` since the epoch (lines 57-61 of the source format both the UTC and the
local datetime this way; the zero-padded field widths follow the `strftime`
documentation). -/
def formatMinutes (m : Int) : String :=
  let days : Int := m / 1440
  let rem : Nat := (m % 1440).toNat
  let c := civilFromDays (days + 719468).toNat
  ⟨padList 4 c.1 ++ '-' :: padList 2 c.2.1 ++ '-' :: padList 2 c.2.2 ++
    ' ' :: padList 2 (rem / 60) ++ ':' :: padList 2 (rem % 60)⟩

/-- The `YYYY-MM-DD HH:MM` shape claimed by the spec: sixteen characters,
digits everywhere except the two dashes, the space and the colon. -/
def matchesYMDHM (s : String) : Bool :=
  match s.data with
  | [y1, y2, y3, y4, s1, mo1, mo2, s2, d1, d2, s3, hh1, hh2, s4, mi1, mi2] =>
    y1.isDigit && y2.isDigit && y3.isDigit && y4.isDigit && (s1 == '-') &&
    mo1.isDigit && mo2.isDigit && (s2 == '-') && d1.isDigit && d2.isDigit &&
    (s3 == ' ') && hh1.isDigit && hh2.isDigit && (s4 == ':') && mi1.isDigit &&
    mi2.isDigit
  | _ => false

/-- Lower bound, in milliseconds since the epoch, of the instants
`datetime` can represent (0001-01-01 00:00). -/
def MIN_MILLIS : Int := -62135596800000

/-- Upper bound, in milliseconds since the epoch, of the instants
`datetime` can represent (9999-12-31 23:59:59.999). -/
def MAX_MILLIS : Int := 253402300799999

/-- Minute number of 0001-01-01 00:00. -/
def MIN_MINUTES : Int := -1035593280

/-- Minute number of 9999-12-31 23:59. -/
def MAX_MINUTES : Int := 4223371679

theorem padList_length (w n : Nat) (h : (natDigits n).length ≤ w) :
    (padList w n).length = w := by
  simp only [padList, List.length_append, List.length_replicate]
  omega

theorem padList_all_digit (w n : Nat) :
    ∀ c ∈ padList w n, c.isDigit = true := by
  intro c hc
  rcases List.mem_append.mp hc with h | h
  · have : c = '0' := List.eq_of_mem_replicate h
    subst this
    decide
  · exact natDigits_all_digit n c h

theorem exists_len2 (a : List Char) (h : a.length = 2) :
    ∃ x1 x2, a = [x1, x2] := by
  rcases a with _ | ⟨x1, a⟩
  · simp at h
  rcases a with _ | ⟨x2, a⟩
  · simp at h
  rcases a with _ | ⟨x3, a⟩
  · exact ⟨x1, x2, rfl⟩
  · simp at h

theorem exists_len4 (a : List Char) (h : a.length = 4) :
    ∃ x1 x2 x3 x4, a = [x1, x2, x3, x4] := by
  rcases a with _ | ⟨x1, a⟩
  · simp at h
  rcases a with _ | ⟨x2, a⟩
  · simp at h
  rcases a with _ | ⟨x3, a⟩
  · simp at h
  rcases a with _ | ⟨x4, a⟩
  · simp at h
  rcases a with _ | ⟨x5, a⟩
  · exact ⟨x1, x2, x3, x4, rfl⟩
  · simp at h

theorem matchesYMDHM_parts (a b c d e : List Char)
    (ha4 : a.length = 4) (had : ∀ x ∈ a, x.isDigit = true)
    (hb2 : b.length = 2) (hbd : ∀ x ∈ b, x.isDigit = true)
    (hc2 : c.length = 2) (hcd : ∀ x ∈ c, x.isDigit = true)
    (hd2 : d.length = 2) (hdd : ∀ x ∈ d, x.isDigit = true)
    (he2 : e.length = 2) (hed : ∀ x ∈ e, x.isDigit = true) :
    matchesYMDHM ⟨a ++ '-' :: b ++ '-' :: c ++ ' ' :: d ++ ':' :: e⟩ = true := by
  obtain ⟨x1, x2, x3, x4, rfl⟩ := exists_len4 a ha4
  obtain ⟨u1, u2, rfl⟩ := exists_len2 b hb2
  obtain ⟨v1, v2, rfl⟩ := exists_len2 c hc2
  obtain ⟨w1, w2, rfl⟩ := exists_len2 d hd2
  obtain ⟨t1, t2, rfl⟩ := exists_len2 e he2
  have h1 := had x1 (by simp)
  have h2 := had x2 (by simp)
  have h3 := had x3 (by simp)
  have h4 := had x4 (by simp)
  have h5 := hbd u1 (by simp)
  have h6 := hbd u2 (by simp)
  have h7 := hcd v1 (by simp)
  have h8 := hcd v2 (by simp)
  have h9 := hdd w1 (by simp)
  have h10 := hdd w2 (by simp)
  have h11 := hed t1 (by simp)
  have h12 := hed t2 (by simp)
  simp only [List.cons_append, List.nil_append]
  simp [matchesYMDHM, h1, h2, h3, h4, h5, h6, h7, h8, h9, h10, h11, h12]

theorem civilFromDays_year_bounds (z : Nat) (hlo : 306 ≤ z)
    (hhi : z ≤ 3652364) :
    (1 ≤ (civilFromDays z).1 ∧ (civilFromDays z).1 ≤ 9999) ∧
    (1 ≤ (civilFromDays z).2.1 ∧ (civilFromDays z).2.1 ≤ 12) ∧
    (1 ≤ (civilFromDays z).2.2 ∧ (civilFromDays z).2.2 ≤ 31) := by
  simp only [civilFromDays]
  split <;> split <;> simp_all <;> omega

theorem formatMinutes_matches (m : Int) (h1 : MIN_MINUTES ≤ m)
    (h2 : m ≤ MAX_MINUTES) : matchesYMDHM (formatMinutes m) = true := by
  have h1i : (-1035593280 : Int) ≤ m := h1
  have h2i : m ≤ (4223371679 : Int) := h2
  have hz1 : 306 ≤ (m / 1440 + 719468).toNat := by omega
  have hz2 : (m / 1440 + 719468).toNat ≤ 3652364 := by omega
  obtain ⟨⟨hy1, hy2⟩, ⟨hm1, hm2⟩, ⟨hd1, hd2⟩⟩ :=
    civilFromDays_year_bounds _ hz1 hz2
  have hrem : (m % 1440).toNat < 1440 := by omega
  simp only [formatMinutes]
  apply matchesYMDHM_parts
  · exact padList_length 4 _ (natDigits_length_le 4 _ (by omega)
      (by norm_num; omega))
  · exact padList_all_digit 4 _
  · exact padList_length 2 _ (natDigits_length_le 2 _ (by omega)
      (by norm_num; omega))
  · exact padList_all_digit 2 _
  · exact padList_length 2 _ (natDigits_length_le 2 _ (by omega)
      (by norm_num; omega))
  · exact padList_all_digit 2 _
  · exact padList_length 2 _ (natDigits_length_le 2 _ (by omega)
      (by norm_num; omega))
  · exact padList_all_digit 2 _
  · exact padList_length 2 _ (natDigits_length_le 2 _ (by omega)
      (by norm_num; omega))
  · exact padList_all_digit 2 _

/-! ### The pipeline (lines 40-63 of the source) -/

/-- Lines 53-54 of the source: `zeros = '0' * (5 - len(str(idx)))` followed by
`mission_name + '_' + zeros + str(idx) + '.JPG'`.  Python's `'0' * k` is the
empty string for negative `k`, which truncated natural subtraction models
exactly. -/
def imageNameOf (mission : String) (idx : Nat) : String :=
  let zeros : String := ⟨List.replicate (5 - (natRepr idx).length) '0'⟩
  mission ++ "_" ++ zeros ++ natRepr idx ++ ".JPG"

/-- Loop body of lines 52-63 for one geotag entry at filename index `idx`:
parse the timestamp (line 56), convert to a UTC datetime (line 57, failing
outside the representable range), convert to the resolved timezone (line 58,
failing when no timezone was resolved), and format both (lines 60-61). -/
def entryRow (env : TZEnv) (tzStr : Option String) (mission : String)
    (idx : Nat) (e : GeotagEntry) : Except Err CaptureRow :=
  match parseTimestampMillis e.timestamp with
  | none => .error .TimestampParseError
  | some ms =>
    if ms < MIN_MILLIS ∨ MAX_MILLIS < ms then .error .TimestampRangeError
    else
      match tzStr with
      | none => .error .TimezoneResolutionError
      | some z =>
        if (ms + 1000 * env.utcoffset z ms) / 60000 < MIN_MINUTES ∨
            MAX_MINUTES < (ms + 1000 * env.utcoffset z ms) / 60000 then
          .error .TimestampRangeError
        else
          .ok ⟨imageNameOf mission idx, formatMinutes (ms / 60000),
               formatMinutes ((ms + 1000 * env.utcoffset z ms) / 60000)⟩

/-- The `for entry in ...` loop of lines 52-63, starting at filename index
`idx` and incrementing it by one per entry; the first failing entry aborts the
whole loop with its exception. -/
def rowsFrom (env : TZEnv) (mission : String) (tzStr : Option String)
    (idx : Nat) : List GeotagEntry → Except Err (List CaptureRow)
  | [] => .ok []
  | e :: rest =>
    match entryRow env tzStr mission idx e with
    | .error err => .error err
    | .ok r =>
      match rowsFrom env mission tzStr (idx + 1) rest with
      | .error err => .error err
      | .ok rs => .ok (r :: rs)

/-- Geotag extraction: the navigation `json_data['flights'][0]['geotag']` of
lines 46 and 52, whose first element line 46 also indexes, so an empty
`flights` list, a missing `geotag` key and an empty `geotag` sequence all
abort with `MalformedInput`; otherwise the sequence is returned unchanged. -/
def extract_geotag (json_data : FlightRecord) : Except Err (List GeotagEntry) :=
  match json_data.flights with
  | [] => .error .MalformedInput
  | f :: _ =>
    match f.geotag with
    | none => .error .MalformedInput
    | some [] => .error .MalformedInput
    | some gs => .ok gs

/-- Row-building core of `generate_pdf` (lines 40-63): resolve the timezone
once from the first geotag entry's coordinate (lines 46-49), then build one
row per entry starting at filename index 2 (lines 51-63).  The returned list
is the `zip(img, utc, local)` table handed to the report renderer. -/
def generate_pdf (env : TZEnv) (json_data : FlightRecord)
    (mission_name : String) : Except Err (List CaptureRow) :=
  match json_data.flights with
  | [] => .error .MalformedInput
  | f :: _ =>
    match f.geotag with
    | none => .error .MalformedInput
    | some [] => .error .MalformedInput
    | some (g0 :: gs) =>
      let tz_str := env.timezone_at g0.coordinate.1 g0.coordinate.2
      rowsFrom env mission_name tz_str 2 (g0 :: gs)

/-! ### Frame (pure-read) variant

`rowsFromFr` and `generate_pdf_fr` thread the input record through every
step of the computation, returning it alongside the result; each step of the
source only reads the record, so the threaded record is the record the Python
code leaves behind. -/

/-- Loop of lines 52-63 with the input record threaded through each
iteration. -/
def rowsFromFr (env : TZEnv) (mission : String) (tzStr : Option String)
    (idx : Nat) (j : FlightRecord) :
    List GeotagEntry → Except Err (List CaptureRow) × FlightRecord
  | [] => (.ok [], j)
  | e :: rest =>
    match entryRow env tzStr mission idx e with
    | .error err => (.error err, j)
    | .ok r =>
      match rowsFromFr env mission tzStr (idx + 1) j rest with
      | (.error err, j2) => (.error err, j2)
      | (.ok rs, j2) => (.ok (r :: rs), j2)

/-- The row-building core with the input record threaded through, modelling
the heap state of `json_data` across lines 40-63. -/
def generate_pdf_fr (env : TZEnv) (json_data : FlightRecord)
    (mission_name : String) : Except Err (List CaptureRow) × FlightRecord :=
  match json_data.flights with
  | [] => (.error .MalformedInput, json_data)
  | f :: _ =>
    match f.geotag with
    | none => (.error .MalformedInput, json_data)
    | some [] => (.error .MalformedInput, json_data)
    | some (g0 :: gs) =>
      let tz_str := env.timezone_at g0.coordinate.1 g0.coordinate.2
      rowsFromFr env mission_name tz_str 2 json_data (g0 :: gs)

/-! ### Lemmas about the pipeline -/

theorem except_isOk_iff {α : Type} (x : Except Err α) :
    x.isOk = true ↔ ∃ a, x = .ok a := by
  cases x <;> simp [Except.isOk, Except.toBool]

theorem entryRow_ok_shape (env : TZEnv) (tz : Option String) (m : String)
    (idx : Nat) (e : GeotagEntry) (r : CaptureRow)
    (h : entryRow env tz m idx e = .ok r) :
    ∃ ms z, parseTimestampMillis e.timestamp = some ms ∧ tz = some z ∧
      MIN_MILLIS ≤ ms ∧ ms ≤ MAX_MILLIS ∧
      MIN_MINUTES ≤ (ms + 1000 * env.utcoffset z ms) / 60000 ∧
      (ms + 1000 * env.utcoffset z ms) / 60000 ≤ MAX_MINUTES ∧
      r = ⟨imageNameOf m idx, formatMinutes (ms / 60000),
           formatMinutes ((ms + 1000 * env.utcoffset z ms) / 60000)⟩ := by
  unfold entryRow at h
  split at h
  · simp at h
  rename_i ms hms
  split at h
  · simp at h
  rename_i hrange
  split at h
  · simp at h
  rename_i zopt z
  split at h
  · simp at h
  rename_i hlocal
  refine ⟨ms, z, hms, rfl, by omega, by omega, by omega, by omega, ?_⟩
  simp only [Except.ok.injEq] at h
  exact h.symm

theorem entryRow_timestamp_only (env : TZEnv) (tz : Option String)
    (m : String) (idx : Nat) (e e2 : GeotagEntry)
    (h : e.timestamp = e2.timestamp) :
    entryRow env tz m idx e = entryRow env tz m idx e2 := by
  unfold entryRow
  rw [h]

theorem rowsFrom_nil (env : TZEnv) (m : String) (tz : Option String)
    (idx : Nat) : rowsFrom env m tz idx [] = .ok [] := rfl

theorem rowsFrom_cons (env : TZEnv) (m : String) (tz : Option String)
    (idx : Nat) (e : GeotagEntry) (rest : List GeotagEntry) :
    rowsFrom env m tz idx (e :: rest) =
      match entryRow env tz m idx e with
      | .error err => .error err
      | .ok r =>
        match rowsFrom env m tz (idx + 1) rest with
        | .error err => .error err
        | .ok rs => .ok (r :: rs) := rfl

theorem rowsFrom_ok_length_get (env : TZEnv) (m : String)
    (tz : Option String) :
    ∀ (l : List GeotagEntry) (idx : Nat) (rows : List CaptureRow),
    rowsFrom env m tz idx l = .ok rows →
    rows.length = l.length ∧
    ∀ i (hi : i < rows.length) (hl : i < l.length),
      entryRow env tz m (idx + i) (l.get ⟨i, hl⟩) = .ok (rows.get ⟨i, hi⟩) := by
  intro l
  induction l with
  | nil =>
    intro idx rows h
    simp only [rowsFrom, Except.ok.injEq] at h
    subst h
    refine ⟨rfl, ?_⟩
    intro i hi
    simp at hi
  | cons e rest ih =>
    intro idx rows h
    unfold rowsFrom at h
    split at h
    · simp at h
    next r hr =>
      split at h
      · simp at h
      next rs hrs =>
        simp only [Except.ok.injEq] at h
        subst h
        obtain ⟨hlen, hget⟩ := ih (idx + 1) rs hrs
        refine ⟨by simp [hlen], ?_⟩
        intro i hi hl
        match i with
        | 0 =>
          simpa using hr
        | i + 1 =>
          have hi2 : i < rs.length := by simp at hi; omega
          have hl2 : i < rest.length := by simp at hl; omega
          have := hget i hi2 hl2
          simp only [List.get_cons_succ]
          have harith : idx + (i + 1) = idx + 1 + i := by omega
          rw [harith]
          exact this

theorem rowsFrom_append_ok (env : TZEnv) (m : String) (tz : Option String) :
    ∀ (a : List GeotagEntry) (idx : Nat) (ra : List CaptureRow)
      (b : List GeotagEntry),
    rowsFrom env m tz idx a = .ok ra →
    rowsFrom env m tz idx (a ++ b) =
      (rowsFrom env m tz (idx + a.length) b).map (fun rb => ra ++ rb) := by
  intro a
  induction a with
  | nil =>
    intro idx ra b h
    simp only [rowsFrom, Except.ok.injEq] at h
    subst h
    simp only [List.nil_append, List.length_nil, Nat.add_zero]
    cases hb : rowsFrom env m tz idx b <;> simp [Except.map]
  | cons e rest ih =>
    intro idx ra b h
    rw [rowsFrom_cons] at h
    split at h
    · simp at h
    next r hr =>
      split at h
      · simp at h
      next rs hrs =>
        simp only [Except.ok.injEq] at h
        subst h
        show rowsFrom env m tz idx (e :: (rest ++ b)) = _
        rw [rowsFrom_cons, hr, ih (idx + 1) rs b hrs]
        have harith : idx + 1 + rest.length = idx + (rest.length + 1) := by
          omega
        rw [harith]
        simp only [List.length_cons]
        cases rowsFrom env m tz (idx + (rest.length + 1)) b <;>
          simp [Except.map]

theorem rowsFrom_timestamps_only (env : TZEnv) (m : String)
    (tz : Option String) :
    ∀ (l l2 : List GeotagEntry) (idx : Nat),
    l.map GeotagEntry.timestamp = l2.map GeotagEntry.timestamp →
    rowsFrom env m tz idx l = rowsFrom env m tz idx l2 := by
  intro l
  induction l with
  | nil =>
    intro l2 idx h
    cases l2
    · rfl
    · simp at h
  | cons e rest ih =>
    intro l2 idx h
    cases l2 with
    | nil => simp at h
    | cons e2 rest2 =>
      simp only [List.map_cons, List.cons.injEq] at h
      show rowsFrom env m tz idx (e :: rest) = rowsFrom env m tz idx (e2 :: rest2)
      unfold rowsFrom
      rw [entryRow_timestamp_only env tz m idx e e2 h.1, ih rest2 (idx + 1) h.2]

theorem rowsFromFr_threads (env : TZEnv) (m : String) (tz : Option String)
    (j : FlightRecord) :
    ∀ (l : List GeotagEntry) (idx : Nat),
    rowsFromFr env m tz idx j l = (rowsFrom env m tz idx l, j) := by
  intro l
  induction l with
  | nil =>
    intro idx
    rfl
  | cons e rest ih =>
    intro idx
    show rowsFromFr env m tz idx j (e :: rest) = _
    unfold rowsFromFr rowsFrom
    cases entryRow env tz m idx e with
    | error err => rfl
    | ok r =>
      rw [ih (idx + 1)]
      cases rowsFrom env m tz (idx + 1) rest <;> rfl

theorem generate_pdf_flights_nil (env : TZEnv) (j : FlightRecord)
    (m : String) (hj : j.flights = []) :
    generate_pdf env j m = .error .MalformedInput := by
  unfold generate_pdf
  rw [hj]

theorem generate_pdf_no_geotag (env : TZEnv) (j : FlightRecord) (m : String)
    (f : Flight) (fs : List Flight) (hj : j.flights = f :: fs)
    (hg : f.geotag = none) :
    generate_pdf env j m = .error .MalformedInput := by
  unfold generate_pdf
  rw [hj]
  simp only
  rw [hg]

theorem generate_pdf_geotag_empty (env : TZEnv) (j : FlightRecord)
    (m : String) (f : Flight) (fs : List Flight) (hj : j.flights = f :: fs)
    (hg : f.geotag = some []) :
    generate_pdf env j m = .error .MalformedInput := by
  unfold generate_pdf
  rw [hj]
  simp only
  rw [hg]

theorem generate_pdf_cons (env : TZEnv) (j : FlightRecord) (m : String)
    (f : Flight) (fs : List Flight) (g : GeotagEntry)
    (gs : List GeotagEntry) (hj : j.flights = f :: fs)
    (hg : f.geotag = some (g :: gs)) :
    generate_pdf env j m =
      rowsFrom env m (env.timezone_at g.coordinate.1 g.coordinate.2) 2
        (g :: gs) := by
  unfold generate_pdf
  rw [hj]
  simp only
  rw [hg]

/-- Inversion: a successful run forces the cons shape of the input. -/
theorem generate_pdf_ok_inv (env : TZEnv) (j : FlightRecord) (m : String)
    (rows : List CaptureRow) (h : generate_pdf env j m = .ok rows) :
    ∃ f fs g gs, j.flights = f :: fs ∧ f.geotag = some (g :: gs) ∧
      rowsFrom env m (env.timezone_at g.coordinate.1 g.coordinate.2) 2
        (g :: gs) = .ok rows := by
  unfold generate_pdf at h
  split at h
  · simp at h
  rename_i f fs0 hj0
  split at h
  · simp at h
  · simp at h
  rename_i g gs hg
  exact ⟨f, fs0, g, gs, hj0, hg, h⟩

/-- The spec's description of the padded suffix: the decimal numeral
left-padded with zeros to width 5. -/
def padTo5 (s : String) : String :=
  (⟨List.replicate (5 - s.length) '0'⟩ : String) ++ s

theorem imageNameOf_eq_padTo5 (m : String) (idx : Nat) :
    imageNameOf m idx = m ++ "_" ++ padTo5 (natRepr idx) ++ ".JPG" := by
  show m ++ "_" ++ (⟨List.replicate (5 - (natRepr idx).length) '0'⟩ : String) ++
      natRepr idx ++ ".JPG" = _
  unfold padTo5
  rw [String.append_assoc (m ++ "_")]

/-! ### Concrete fixtures used by the witnesses -/

/-- Environment whose lookup always resolves to a UTC+0 zone. -/
def envW : TZEnv :=
  ⟨fun _ _ => some "Etc/UTC", fun _ _ => 0⟩

/-- One geotag entry at the origin with timestamp 2023-11-14 22:13:20 UTC. -/
def entW : GeotagEntry :=
  ⟨(0, 0), "1700000000000"⟩

/-- A record with a single flight holding the single entry `entW`. -/
def jW : FlightRecord :=
  ⟨[⟨some [entW]⟩]⟩

/-- The row the pipeline computes from `entW` under `envW`. -/
def capRowW : CaptureRow :=
  ⟨"M_00002.JPG", "2023-11-14 22:13", "2023-11-14 22:13"⟩

/-! ### Claims -/

/-- Claim C9: the core pipeline performs a pure read: threading the input
record through every statement of lines 40-63 returns it unchanged alongside
the same result the pure function computes; no field of the input is
mutated. -/
theorem generate_pdf_pure_read (env : TZEnv) (j : FlightRecord)
    (m : String) : generate_pdf_fr env j m = (generate_pdf env j m, j) := by
  obtain ⟨flights⟩ := j
  cases flights with
  | nil => rfl
  | cons f fs =>
    obtain ⟨geotag⟩ := f
    cases geotag with
    | none => rfl
    | some gs =>
      cases gs with
      | nil => rfl
      | cons g rest =>
        exact rowsFromFr_threads env m _ _ (g :: rest) 2

/-- Claim C4: on every successful run the normalizer emits exactly one
capture row per geotag entry of the first flight, in input order: the row at
index `i` is exactly the row the loop body computes from the entry at index
`i`. -/
theorem one_row_per_entry (env : TZEnv) (j : FlightRecord) (m : String)
    (f : Flight) (fs : List Flight) (g : GeotagEntry)
    (gs : List GeotagEntry) (rows : List CaptureRow)
    (hj : j.flights = f :: fs) (hg : f.geotag = some (g :: gs))
    (h : generate_pdf env j m = .ok rows) :
    rows.length = (g :: gs).length ∧
    ∀ i (hi : i < rows.length) (hl : i < (g :: gs).length),
      entryRow env (env.timezone_at g.coordinate.1 g.coordinate.2) m (2 + i)
        ((g :: gs).get ⟨i, hl⟩) = .ok (rows.get ⟨i, hi⟩) := by
  rw [generate_pdf_cons env j m f fs g gs hj hg] at h
  exact rowsFrom_ok_length_get env m _ (g :: gs) 2 rows h

/-- Witness for C4: a one-entry flight yields exactly one row, built from
that entry. -/
theorem one_row_per_entry_witness :
    ([capRowW].length = [entW].length ∧
    ∀ i (hi : i < [capRowW].length) (hl : i < [entW].length),
      entryRow envW (envW.timezone_at entW.coordinate.1 entW.coordinate.2)
        "M" (2 + i) ([entW].get ⟨i, hl⟩) = .ok ([capRowW].get ⟨i, hi⟩)) :=
  one_row_per_entry envW jW "M" ⟨some [entW]⟩ [] entW [] [capRowW]
    rfl rfl rfl

/-- Claim C2: on every successful run, the image name of the row at index
`i` (counted from 0) is the mission name, an underscore, the decimal numeral
of `i + 2` zero-padded to width 5, and `.JPG`; the suffixes are therefore the
contiguous increasing sequence 00002, 00003, ... with no gaps and no
reordering, and the pad-to-5 shape (`length = max 5 (numeral length)`) holds
for every index. -/
theorem filenames_contiguous_padded (env : TZEnv) (j : FlightRecord)
    (m : String) (rows : List CaptureRow)
    (h : generate_pdf env j m = .ok rows) :
    (∀ i (hi : i < rows.length),
      (rows.get ⟨i, hi⟩).imageName = m ++ "_" ++ padTo5 (natRepr (i + 2)) ++ ".JPG") ∧
    (∀ s : String, (padTo5 s).length = max 5 s.length) := by
  constructor
  · intro i hi
    obtain ⟨f, fs, g, gs, hj, hg, hrows⟩ := generate_pdf_ok_inv env j m rows h
    obtain ⟨hlen, hget⟩ := rowsFrom_ok_length_get env m _ (g :: gs) 2 rows hrows
    have hl : i < (g :: gs).length := by omega
    have := hget i hi hl
    obtain ⟨ms, z, _, _, _, _, _, _, hr⟩ :=
      entryRow_ok_shape env _ m (2 + i) ((g :: gs).get ⟨i, hl⟩)
        (rows.get ⟨i, hi⟩) this
    rw [hr]
    show imageNameOf m (2 + i) = _
    rw [imageNameOf_eq_padTo5]
    have : 2 + i = i + 2 := by omega
    rw [this]
  · intro s
    simp only [padTo5, String.length_append]
    show (List.replicate (5 - s.length) '0').length + s.length = _
    simp only [List.length_replicate]
    omega

/-- Witness for C2: the single row of a one-entry flight is named
`M_00002.JPG`, and the pad-to-5 length law holds. -/
theorem filenames_contiguous_padded_witness :
    (∀ i (hi : i < [capRowW].length),
      ([capRowW].get ⟨i, hi⟩).imageName =
        "M" ++ "_" ++ padTo5 (natRepr (i + 2)) ++ ".JPG") ∧
    (∀ s : String, (padTo5 s).length = max 5 s.length) :=
  filenames_contiguous_padded envW jW "M" [capRowW] rfl

theorem takeWhile_until_dot (t : List Char) :
    ∀ l : List Char, (∀ c ∈ l, (c != '.') = true) →
    (l ++ '.' :: t).takeWhile (fun c => c != '.') = l := by
  intro l
  induction l with
  | nil => simp [List.takeWhile_cons]
  | cons c cs ih =>
    intro h
    have hc := h c (by simp)
    simp only [List.cons_append, List.takeWhile_cons, hc, if_true]
    rw [ih (fun x hx => h x (by simp [hx]))]

/-- Claim C3: the timestamp string is truncated at the first `.`, the
remaining prefix string is parsed by Python `int`, and the decoded instant is
the parsed millisecond count divided by 1000 seconds; in particular
`"1700000000000.123"` decodes to the instant at epoch seconds
1700000000. -/
theorem timestamp_truncated_at_first_dot (pre suf : String)
    (hpre : '.' ∉ pre.data) :
    parseTimestampMillis (pre ++ "." ++ suf) = pythonIntOfString pre ∧
    parseTimestampMillis "1700000000000.123" = some 1700000000000 ∧
    instantSeconds 1700000000000 = 1700000000 := by
  refine ⟨?_, by decide, ?_⟩
  · show pythonIntOfString ⟨(pre ++ "." ++ suf).data.takeWhile _⟩ = _
    rw [String.data_append, String.data_append]
    have hdot : ("." : String).data = ['.'] := rfl
    rw [hdot, List.append_assoc, List.singleton_append]
    rw [takeWhile_until_dot suf.data pre.data
      (fun c hc => by simp; intro hEq; exact hpre (hEq ▸ hc))]
  · show ((1700000000000 : Int) : Rat) / 1000 = 1700000000
    norm_num

/-- Witness for C3: the concrete split of `"1700000000000.123"` at the dot,
with the general truncation law applied to its two halves. -/
theorem timestamp_truncated_at_first_dot_witness :
    parseTimestampMillis ("1700000000000" ++ "." ++ "123") =
      pythonIntOfString "1700000000000" ∧
    parseTimestampMillis "1700000000000.123" = some 1700000000000 ∧
    instantSeconds 1700000000000 = 1700000000 :=
  timestamp_truncated_at_first_dot "1700000000000" "123" (by decide)

/-- Claim C10: filename construction is total for indexes of six or more
digits: for `idx ≥ 100000` the padding expression `'0' * (5 - len(str(idx)))`
of line 53 evaluates to the empty string instead of raising, the image name
is the mission name with the unpadded decimal numeral of `idx`, and the
suffix numeral still denotes `idx` itself (so the suffix values keep
increasing strictly with the row index). -/
theorem large_index_name_unpadded (env : TZEnv) (tz : Option String)
    (m : String) (idx : Nat) (e : GeotagEntry) (h : 100000 ≤ idx) :
    ((⟨List.replicate (5 - (natRepr idx).length) '0'⟩ : String) = "") ∧
    imageNameOf m idx = m ++ "_" ++ natRepr idx ++ ".JPG" ∧
    digitsVal (natDigits idx) = idx ∧
    (∀ r, entryRow env tz m idx e = .ok r →
      r.imageName = m ++ "_" ++ natRepr idx ++ ".JPG") := by
  have hlen : 5 ≤ (natRepr idx).length := by
    have h4 : 10 ^ 4 ≤ idx := by norm_num; omega
    have := natDigits_length_ge 4 idx h4
    exact this
  have hzero : 5 - (natRepr idx).length = 0 := by omega
  have hempty : (⟨List.replicate (5 - (natRepr idx).length) '0'⟩ : String) = "" := by
    rw [hzero]
    rfl
  have hname : imageNameOf m idx = m ++ "_" ++ natRepr idx ++ ".JPG" := by
    show m ++ "_" ++ (⟨List.replicate (5 - (natRepr idx).length) '0'⟩ : String) ++
        natRepr idx ++ ".JPG" = _
    rw [hempty, String.append_empty]
  refine ⟨hempty, hname, digitsVal_natDigits idx, ?_⟩
  intro r hr
  obtain ⟨ms, z, _, _, _, _, _, _, hshape⟩ :=
    entryRow_ok_shape env tz m idx e r hr
  rw [hshape]
  exact hname

/-- Witness for C10: index 100000 produces the unpadded name
`M_100000.JPG`. -/
theorem large_index_name_unpadded_witness :
    ((⟨List.replicate (5 - (natRepr 100000).length) '0'⟩ : String) = "") ∧
    imageNameOf "M" 100000 = "M" ++ "_" ++ natRepr 100000 ++ ".JPG" ∧
    digitsVal (natDigits 100000) = 100000 ∧
    (∀ r, entryRow envW (some "Etc/UTC") "M" 100000 entW = .ok r →
      r.imageName = "M" ++ "_" ++ natRepr 100000 ++ ".JPG") :=
  large_index_name_unpadded envW (some "Etc/UTC") "M" 100000 entW (by decide)

/-- Claim C1: the timezone is resolved exactly once, from the first entry's
coordinate: the pipeline's output equals the loop run with the single
resolved zone, and two inputs sharing the first entry and all timestamps
produce identical output no matter where the later entries' coordinates lie
(so moving a later entry into a different timezone cannot change the local
time strings). -/
theorem timezone_resolved_once (env : TZEnv) (m : String)
    (j j2 : FlightRecord) (f f2 : Flight) (fs fs2 : List Flight)
    (g : GeotagEntry) (gs gs2 : List GeotagEntry)
    (hj : j.flights = f :: fs) (hg : f.geotag = some (g :: gs))
    (hj2 : j2.flights = f2 :: fs2) (hg2 : f2.geotag = some (g :: gs2))
    (hts : gs.map GeotagEntry.timestamp = gs2.map GeotagEntry.timestamp) :
    generate_pdf env j m =
      rowsFrom env m (env.timezone_at g.coordinate.1 g.coordinate.2) 2
        (g :: gs) ∧
    generate_pdf env j m = generate_pdf env j2 m := by
  have e1 := generate_pdf_cons env j m f fs g gs hj hg
  have e2 := generate_pdf_cons env j2 m f2 fs2 g gs2 hj2 hg2
  refine ⟨e1, ?_⟩
  rw [e1, e2]
  exact rowsFrom_timestamps_only env m _ (g :: gs) (g :: gs2) 2
    (by simp [hts])

/-- Environment for the C1 witness: the equator belongs to zone A with zero
offset; everywhere else is zone B, one hour ahead. -/
def envZones : TZEnv :=
  ⟨fun lat _ => if lat = 0 then some "Zone/A" else some "Zone/B",
   fun z _ => if z = "Zone/A" then 0 else 3600⟩

/-- A later entry at latitude 50, inside zone B of `envZones`, with the same
timestamp as `entW`. -/
def entB : GeotagEntry :=
  ⟨(50, 50), "1700000000000"⟩

/-- Two-entry record whose entries both sit in zone A. -/
def jZA : FlightRecord :=
  ⟨[⟨some [entW, entW]⟩]⟩

/-- The same record with the second entry moved into zone B. -/
def jZB : FlightRecord :=
  ⟨[⟨some [entW, entB]⟩]⟩

/-- Witness for C1: moving the second entry of a two-entry mission from zone
A to zone B leaves the output untouched, and the output is the loop run with
the zone of the first coordinate. -/
theorem timezone_resolved_once_witness :
    generate_pdf envZones jZA "M" =
      rowsFrom envZones "M"
        (envZones.timezone_at entW.coordinate.1 entW.coordinate.2) 2
        [entW, entW] ∧
    generate_pdf envZones jZA "M" = generate_pdf envZones jZB "M" :=
  timezone_resolved_once envZones "M" jZA jZB ⟨some [entW, entW]⟩
    ⟨some [entW, entB]⟩ [] [] entW [entW] [entB] rfl rfl rfl rfl rfl

theorem entryRow_parse_none (env : TZEnv) (tz : Option String) (m : String)
    (idx : Nat) (e : GeotagEntry)
    (hp : parseTimestampMillis e.timestamp = none) :
    entryRow env tz m idx e = .error .TimestampParseError := by
  unfold entryRow
  rw [hp]

theorem entryRow_out_of_range (env : TZEnv) (tz : Option String) (m : String)
    (idx : Nat) (e : GeotagEntry) (ms : Int)
    (hp : parseTimestampMillis e.timestamp = some ms)
    (hr : ms < MIN_MILLIS ∨ MAX_MILLIS < ms) :
    entryRow env tz m idx e = .error .TimestampRangeError := by
  unfold entryRow
  simp only [hp]
  rw [if_pos hr]

theorem entryRow_tz_none (env : TZEnv) (m : String) (idx : Nat)
    (e : GeotagEntry) (ms : Int)
    (hp : parseTimestampMillis e.timestamp = some ms)
    (hr : ¬(ms < MIN_MILLIS ∨ MAX_MILLIS < ms)) :
    entryRow env none m idx e = .error .TimezoneResolutionError := by
  unfold entryRow
  simp only [hp]
  rw [if_neg hr]

/-- Claim C6: extraction fails with `MalformedInput` — and the pipeline
errors out with zero rows — when the flights list is empty, when the first
flight has no geotag key, or when the geotag sequence is empty; in every
other case extraction returns the geotag sequence of the first flight
unchanged. -/
theorem extraction_malformed_cases (env : TZEnv) (j : FlightRecord)
    (m : String) :
    (j.flights = [] →
      extract_geotag j = .error .MalformedInput ∧
      generate_pdf env j m = .error .MalformedInput) ∧
    (∀ f fs, j.flights = f :: fs → f.geotag = none →
      extract_geotag j = .error .MalformedInput ∧
      generate_pdf env j m = .error .MalformedInput) ∧
    (∀ f fs, j.flights = f :: fs → f.geotag = some [] →
      extract_geotag j = .error .MalformedInput ∧
      generate_pdf env j m = .error .MalformedInput) ∧
    (∀ f fs g gs, j.flights = f :: fs → f.geotag = some (g :: gs) →
      extract_geotag j = .ok (g :: gs)) := by
  refine ⟨?_, ?_, ?_, ?_⟩
  · intro hj
    constructor
    · unfold extract_geotag
      rw [hj]
    · exact generate_pdf_flights_nil env j m hj
  · intro f fs hj hg
    constructor
    · unfold extract_geotag
      rw [hj]
      simp only
      rw [hg]
    · exact generate_pdf_no_geotag env j m f fs hj hg
  · intro f fs hj hg
    constructor
    · unfold extract_geotag
      rw [hj]
      simp only
      rw [hg]
    · exact generate_pdf_geotag_empty env j m f fs hj hg
  · intro f fs g gs hj hg
    unfold extract_geotag
    rw [hj]
    simp only
    rw [hg]

/-- Record with no flight at all. -/
def jEmptyFlights : FlightRecord := ⟨[]⟩

/-- Record whose first flight has no geotag key. -/
def jNoGeotag : FlightRecord := ⟨[⟨none⟩]⟩

/-- Record whose first flight has an empty geotag sequence. -/
def jEmptyGeotag : FlightRecord := ⟨[⟨some []⟩]⟩

/-- Witness for C6: the three malformed shapes all abort with
`MalformedInput`, and a well-formed one-entry record extracts its geotag
sequence unchanged. -/
theorem extraction_malformed_cases_witness :
    (extract_geotag jEmptyFlights = .error .MalformedInput ∧
     generate_pdf envW jEmptyFlights "M" = .error .MalformedInput) ∧
    (extract_geotag jNoGeotag = .error .MalformedInput ∧
     generate_pdf envW jNoGeotag "M" = .error .MalformedInput) ∧
    (extract_geotag jEmptyGeotag = .error .MalformedInput ∧
     generate_pdf envW jEmptyGeotag "M" = .error .MalformedInput) ∧
    extract_geotag jW = .ok [entW] :=
  ⟨(extraction_malformed_cases envW jEmptyFlights "M").1 rfl,
   (extraction_malformed_cases envW jNoGeotag "M").2.1 ⟨none⟩ [] rfl rfl,
   (extraction_malformed_cases envW jEmptyGeotag "M").2.2.1 ⟨some []⟩ [] rfl rfl,
   (extraction_malformed_cases envW jW "M").2.2.2 ⟨some [entW]⟩ [] entW []
     rfl rfl⟩

/-- Claim C7: when the first entry's coordinate lies in no timezone polygon
the pipeline never produces rows, and — whenever the first entry's own
timestamp decodes to a representable instant, so that line 58 is the first
failing statement — the error is precisely `TimezoneResolutionError`; no
default timezone is substituted. -/
theorem ocean_coordinate_fails (env : TZEnv) (j : FlightRecord) (m : String)
    (f : Flight) (fs : List Flight) (g : GeotagEntry)
    (gs : List GeotagEntry) (hj : j.flights = f :: fs)
    (hg : f.geotag = some (g :: gs))
    (hz : env.timezone_at g.coordinate.1 g.coordinate.2 = none) :
    (∃ err, generate_pdf env j m = .error err) ∧
    (∀ ms, parseTimestampMillis g.timestamp = some ms →
      MIN_MILLIS ≤ ms → ms ≤ MAX_MILLIS →
      generate_pdf env j m = .error .TimezoneResolutionError) := by
  have e1 := generate_pdf_cons env j m f fs g gs hj hg
  rw [hz] at e1
  constructor
  · cases hp : parseTimestampMillis g.timestamp with
    | none =>
      refine ⟨.TimestampParseError, ?_⟩
      rw [e1, rowsFrom_cons, entryRow_parse_none env none m 2 g hp]
    | some ms =>
      by_cases hr : ms < MIN_MILLIS ∨ MAX_MILLIS < ms
      · refine ⟨.TimestampRangeError, ?_⟩
        rw [e1, rowsFrom_cons, entryRow_out_of_range env none m 2 g ms hp hr]
      · refine ⟨.TimezoneResolutionError, ?_⟩
        rw [e1, rowsFrom_cons, entryRow_tz_none env m 2 g ms hp hr]
  · intro ms hp h1 h2
    rw [e1, rowsFrom_cons, entryRow_tz_none env m 2 g ms hp (by omega)]

/-- Environment whose polygon lookup never finds a zone (open ocean
everywhere). -/
def envOcean : TZEnv := ⟨fun _ _ => none, fun _ _ => 0⟩

/-- Witness for C7: under the ocean environment the one-entry record fails,
and since its timestamp is representable the error is
`TimezoneResolutionError`. -/
theorem ocean_coordinate_fails_witness :
    (∃ err, generate_pdf envOcean jW "M" = .error err) ∧
    (∀ ms, parseTimestampMillis entW.timestamp = some ms →
      MIN_MILLIS ≤ ms → ms ≤ MAX_MILLIS →
      generate_pdf envOcean jW "M" = .error .TimezoneResolutionError) :=
  ocean_coordinate_fails envOcean jW "M" ⟨some [entW]⟩ [] entW [] rfl rfl rfl

/-- Claim C5: a geotag entry whose timestamp has a non-numeric integer
prefix aborts the whole batch: when every entry before it succeeds, the
pipeline fails with `TimestampParseError`, and in particular it emits no
rows at all — not even for the valid entries preceding the failing one. -/
theorem malformed_timestamp_aborts (env : TZEnv) (j : FlightRecord)
    (m : String) (f : Flight) (fs : List Flight) (g : GeotagEntry)
    (gs good tail : List GeotagEntry) (e : GeotagEntry)
    (hj : j.flights = f :: fs) (hg : f.geotag = some (g :: gs))
    (hsplit : g :: gs = good ++ e :: tail)
    (hbad : parseTimestampMillis e.timestamp = none)
    (hgood : (rowsFrom env m
      (env.timezone_at g.coordinate.1 g.coordinate.2) 2 good).isOk = true) :
    generate_pdf env j m = .error .TimestampParseError ∧
    ∀ rows, generate_pdf env j m ≠ .ok rows := by
  obtain ⟨ra, hra⟩ := (except_isOk_iff _).mp hgood
  have hmain : generate_pdf env j m = .error .TimestampParseError := by
    rw [generate_pdf_cons env j m f fs g gs hj hg, hsplit]
    rw [rowsFrom_append_ok env m _ good 2 ra (e :: tail) hra]
    rw [rowsFrom_cons,
      entryRow_parse_none env _ m (2 + good.length) e hbad]
    simp [Except.map]
  refine ⟨hmain, ?_⟩
  intro rows hrows
  rw [hmain] at hrows
  simp at hrows

/-- Entry with the unparseable timestamp of the spec's test. -/
def entBad : GeotagEntry := ⟨(0, 0), "abc"⟩

/-- Two-entry record whose second timestamp is `"abc"`. -/
def jBad : FlightRecord := ⟨[⟨some [entW, entBad]⟩]⟩

/-- Witness for C5: with a valid first entry and a second timestamp
`"abc"`, the batch aborts with `TimestampParseError` and no row list is
returned. -/
theorem malformed_timestamp_aborts_witness :
    generate_pdf envW jBad "M" = .error .TimestampParseError ∧
    ∀ rows, generate_pdf envW jBad "M" ≠ .ok rows :=
  malformed_timestamp_aborts envW jBad "M" ⟨some [entW, entBad]⟩ [] entW
    [entBad] [entW] [] entBad rfl rfl rfl rfl rfl

/-- Claim C8: every formatted time string of a successful run matches the
`YYYY-MM-DD HH:MM` shape, and whenever the resolved timezone has offset zero
at every instant (a UTC+0 zone) the UTC and local strings of every row are
identical. -/
theorem rows_pattern_and_utc0 (env : TZEnv) (j : FlightRecord) (m : String)
    (rows : List CaptureRow) (h : generate_pdf env j m = .ok rows) :
    (∀ r ∈ rows, matchesYMDHM r.utcTime = true ∧
      matchesYMDHM r.localTime = true) ∧
    (∀ f fs g gs z, j.flights = f :: fs → f.geotag = some (g :: gs) →
      env.timezone_at g.coordinate.1 g.coordinate.2 = some z →
      (∀ t, env.utcoffset z t = 0) →
      ∀ r ∈ rows, r.utcTime = r.localTime) := by
  obtain ⟨f, fs, g, gs, hj, hg, hrows⟩ := generate_pdf_ok_inv env j m rows h
  obtain ⟨hlen, hget⟩ := rowsFrom_ok_length_get env m _ (g :: gs) 2 rows hrows
  constructor
  · intro r hr
    obtain ⟨⟨i, hi⟩, hrg⟩ := List.mem_iff_get.mp hr
    have hl : i < (g :: gs).length := by omega
    have hok := hget i hi hl
    obtain ⟨ms, z, hp, htz, hmin, hmax, hlmin, hlmax, hshape⟩ :=
      entryRow_ok_shape env _ m (2 + i) ((g :: gs).get ⟨i, hl⟩)
        (rows.get ⟨i, hi⟩) hok
    rw [← hrg, hshape]
    constructor
    · apply formatMinutes_matches
      · have hm : (-62135596800000 : Int) ≤ ms := hmin
        show (-1035593280 : Int) ≤ ms / 60000
        omega
      · have hM : ms ≤ (253402300799999 : Int) := hmax
        show ms / 60000 ≤ (4223371679 : Int)
        omega
    · exact formatMinutes_matches _ hlmin hlmax
  · intro f2 fs2 g2 gs2 z hj2 hg2 hz hzero r hr
    rw [hj] at hj2
    injection hj2 with hf hfs
    subst hf
    rw [hg] at hg2
    injection hg2 with hgg
    injection hgg with hgeq hgseq
    subst hgeq
    subst hgseq
    obtain ⟨⟨i, hi⟩, hrg⟩ := List.mem_iff_get.mp hr
    have hl : i < (g :: gs).length := by omega
    have hok := hget i hi hl
    rw [hz] at hok
    obtain ⟨ms, z2, hp, htz, _, _, _, _, hshape⟩ :=
      entryRow_ok_shape env (some z) m (2 + i) ((g :: gs).get ⟨i, hl⟩)
        (rows.get ⟨i, hi⟩) hok
    have hzz : z = z2 := Option.some.inj htz
    subst hzz
    rw [← hrg, hshape]
    show formatMinutes (ms / 60000) =
      formatMinutes ((ms + 1000 * env.utcoffset z ms) / 60000)
    rw [hzero ms]
    norm_num

/-- Witness for C8: the one-row run under the UTC+0 environment matches the
pattern, and its UTC and local strings agree. -/
theorem rows_pattern_and_utc0_witness :
    (∀ r ∈ [capRowW], matchesYMDHM r.utcTime = true ∧
      matchesYMDHM r.localTime = true) ∧
    (∀ f fs g gs z, jW.flights = f :: fs → f.geotag = some (g :: gs) →
      envW.timezone_at g.coordinate.1 g.coordinate.2 = some z →
      (∀ t, envW.utcoffset z t = 0) →
      ∀ r ∈ [capRowW], r.utcTime = r.localTime) :=
  rows_pattern_and_utc0 envW jW "M" [capRowW] rfl

end FetchTimestamps
